import Mathlib

/-!
Verification of the travel-recap itinerary engine.

This file embeds, in Lean, the core data transformations of the
`your-travel-recap` application:

* the destination aggregator `generateDestinations`
  (src/components/travel-recap/LocationTagger.tsx, lines 99-176),
* the suggestion-confirmation step `confirmSuggestion`
  (LocationTagger.tsx, lines 72-87),
* the quarter bucketing `quarterlyDestinations`, the slide compiler
  `slides`, the per-slide duration policy `getSlideDuration`, and the
  auto-advance progress step (RecapStory.tsx, lines 127-291).

JavaScript-specific behaviour is modelled explicitly:

* `x || y` on numbers is truthiness: `0` counts as absent
  (`jsTimestamp`, `assignQuarter`);
* `crypto.randomUUID()` and `Date.now()` are nondeterministic inputs,
  so the embedding passes them in as parameters (`uuid : Nat → String`,
  `now : Nat`); one program run corresponds to one choice of these;
* `new Date(t).getMonth() + 1` belongs to the external Date collaborator
  and is passed in as a parameter `month : Nat → Nat`;
* `Array.prototype.sort` with comparator `a - b` is a stable ascending
  sort, modelled by `List.insertionSort` (stable, ascending);
* a JS `Map` is insertion-ordered, modelled by an association list to
  which new keys are appended at the end.
-/

set_option maxHeartbeats 1000000

namespace TravelRecap

/-- The `'country' | 'city'` union used by `location.type`. -/
inductive LocType where
  | country : LocType
  | city : LocType
deriving DecidableEq, Repr

/-- `TravelImage.location` (types.ts lines 14-18): a resolved location. -/
structure Location where
  type : LocType
  name : String
  country : String
deriving DecidableEq, Repr

/-- The part of `TravelImage` (types.ts lines 10-26) read by the
aggregator: `preview`, the optional `location`, and the optional
`timestamp` field that `generateDestinations` reads at
LocationTagger.tsx line 128 (`img.timestamp || Date.now()`). -/
structure TravelImage where
  id : String
  preview : String
  location : Option Location
  timestamp : Option Nat
deriving DecidableEq, Repr

/-- The accumulator value of `destinationMap`
(LocationTagger.tsx lines 113-120). -/
structure Accum where
  type : LocType
  name : String
  country : String
  images : List String
  timestamps : List Nat
  earliestTimestamp : Nat
deriving DecidableEq, Repr

/-- `TravelDestination` as actually produced at LocationTagger.tsx
lines 159-167 (the emitted object carries `earliestTimestamp` even
though the declared interface in types.ts omits it; RecapStory.tsx
reads it, so the runtime field is part of the model). -/
structure Destination where
  id : String
  type : LocType
  name : String
  country : String
  images : List String
  visitOrder : Nat
  earliestTimestamp : Option Nat
deriving DecidableEq, Repr

/-- `.toLowerCase()` as a character-by-character map (how JS lowercases
the ASCII place names involved here). -/
def strLower (s : String) : String :=
  String.mk (s.data.map Char.toLower)

/-- The `Map` key computed at LocationTagger.tsx lines 124-126:
`city:${name.toLowerCase()}:${country.toLowerCase()}` for city-type
locations and `country:${country.toLowerCase()}` for country-type. -/
def keyOfLoc (loc : Location) : String :=
  match loc.type with
  | LocType.city => "city:" ++ strLower loc.name ++ ":" ++ strLower loc.country
  | LocType.country => "country:" ++ strLower loc.country

/-- The key of an image, when it has a location. -/
def imgKey (img : TravelImage) : Option String :=
  img.location.map keyOfLoc

/-- `img.timestamp || Date.now()` (LocationTagger.tsx line 128): JS
`||` picks the fallback when the left side is `undefined` or `0`. -/
def jsTimestamp (now : Nat) (img : TravelImage) : Nat :=
  match img.timestamp with
  | some t => if t = 0 then now else t
  | none => now

/-- Whether the image carries a truthy `timestamp` (nonzero, present). -/
def hasTruthyTimestamp (img : TravelImage) : Bool :=
  match img.timestamp with
  | some t => decide (t ≠ 0)
  | none => false

/-- The update of an existing `destinationMap` entry
(LocationTagger.tsx lines 143-151): push the preview and timestamp,
lower `earliestTimestamp` if the new timestamp is smaller. The first
entry whose key matches is updated (keys are unique in a JS `Map`). -/
def updateEntry (k : String) (p : String) (t : Nat) :
    List (String × Accum) → List (String × Accum)
  | [] => []
  | (k', a) :: rest =>
    if k' = k then
      (k', { a with
              images := a.images ++ [p],
              timestamps := a.timestamps ++ [t],
              earliestTimestamp :=
                if t < a.earliestTimestamp then t else a.earliestTimestamp }) :: rest
    else
      (k', a) :: updateEntry k p t rest

/-- `destinationMap.has(key)` for the association-list model. -/
def hasKey (k : String) (m : List (String × Accum)) : Bool :=
  m.any (fun e => e.1 = k)

/-- The body of the `forEach` at LocationTagger.tsx lines 122-154:
skip images without a location; otherwise create a fresh entry
(appended at the end, as a JS `Map` is insertion-ordered) or extend
the existing one. -/
def stepEntry (now : Nat) (m : List (String × Accum)) (img : TravelImage) :
    List (String × Accum) :=
  match img.location with
  | none => m
  | some loc =>
    let k := keyOfLoc loc
    let t := jsTimestamp now img
    if hasKey k m then
      updateEntry k img.preview t m
    else
      m ++ [(k, { type := loc.type, name := loc.name, country := loc.country,
                  images := [img.preview], timestamps := [t],
                  earliestTimestamp := t })]

/-- The whole `forEach` loop: fold the tagged images into the map. -/
def buildMap (now : Nat) (imgs : List TravelImage) : List (String × Accum) :=
  imgs.foldl (stepEntry now) []

/-- The comparator `a[1].earliestTimestamp - b[1].earliestTimestamp`
(LocationTagger.tsx line 158) as the ascending sort relation. -/
def entryLE (a b : String × Accum) : Prop :=
  a.2.earliestTimestamp ≤ b.2.earliestTimestamp

instance : DecidableRel entryLE := fun a b =>
  Nat.decLe a.2.earliestTimestamp b.2.earliestTimestamp

instance : IsTotal (String × Accum) entryLE :=
  ⟨fun a b => Nat.le_total a.2.earliestTimestamp b.2.earliestTimestamp⟩

instance : IsTrans (String × Accum) entryLE :=
  ⟨fun _ _ _ h h' => Nat.le_trans h h'⟩

/-- One emitted destination (LocationTagger.tsx lines 159-167):
`id` comes from `crypto.randomUUID()` (modelled by the supply `uuid`
applied to the output index), `visitOrder` is the 1-based rank. -/
def emitDest (uuid : Nat → String) (i : Nat) (e : String × Accum) : Destination :=
  { id := uuid i, type := e.2.type, name := e.2.name, country := e.2.country,
    images := e.2.images, visitOrder := i + 1,
    earliestTimestamp := some e.2.earliestTimestamp }

/-- `.map((entry, index) => ...)` over the sorted entries. -/
def emitAll (uuid : Nat → String) (i : Nat) :
    List (String × Accum) → List Destination
  | [] => []
  | e :: rest => emitDest uuid i e :: emitAll uuid (i + 1) rest

/-- The images that survive the `filter(img => img.location)` at
LocationTagger.tsx line 103. -/
def locatedImages (imgs : List TravelImage) : List TravelImage :=
  imgs.filter (fun img => img.location.isSome)

/-- `generateDestinations` (LocationTagger.tsx lines 99-176):
filter to located images, return `[]` when none remain, fold into the
insertion-ordered map, stable-sort by cluster minimum timestamp, and
emit destinations with fresh ids and 1-based visit order.  `now` is
the value of `Date.now()` during the run and `uuid` the stream of
`crypto.randomUUID()` results. -/
def generateDestinations (now : Nat) (uuid : Nat → String)
    (imgs : List TravelImage) : List Destination :=
  let taggedWithLocation := locatedImages imgs
  if taggedWithLocation.length = 0 then []
  else
    emitAll uuid 0 (List.insertionSort entryLE (buildMap now taggedWithLocation))

/-- The per-key view of one `forEach` step: what happens to the entry
of key `k` when an image with that key arrives — created fresh from
the image's location, or extended with the image's preview and
timestamp (minimum maintained as in LocationTagger.tsx lines 147-150).
Images without a location leave the entry alone. -/
def extendAcc (now : Nat) (o : Option Accum) (img : TravelImage) : Option Accum :=
  match o, img.location with
  | _, none => o
  | none, some loc =>
    some { type := loc.type, name := loc.name, country := loc.country,
           images := [img.preview], timestamps := [jsTimestamp now img],
           earliestTimestamp := jsTimestamp now img }
  | some a, some _ =>
    some { a with
            images := a.images ++ [img.preview],
            timestamps := a.timestamps ++ [jsTimestamp now img],
            earliestTimestamp :=
              if jsTimestamp now img < a.earliestTimestamp then jsTimestamp now img
              else a.earliestTimestamp }

/-- `destinationMap.get(key)` for the association-list model: the
first (hence, keys being unique, the only) entry with key `k`. -/
def findA (k : String) (m : List (String × Accum)) : Option Accum :=
  (m.find? (fun e => e.1 = k)).map (fun e => e.2)

/-- The map invariant: keys are unique, and every entry's key is the
identity key recomputed from the accumulator's own fields. -/
def WFmap (m : List (String × Accum)) : Prop :=
  (m.map Prod.fst).Nodup ∧
    ∀ e ∈ m, e.1 = keyOfLoc { type := e.2.type, name := e.2.name, country := e.2.country }

/-- The images of `imgs` whose identity key is `k`, in input order. -/
def groupOf (k : String) (imgs : List TravelImage) : List TravelImage :=
  imgs.filter (fun i => imgKey i = some k)

/-- The running-minimum update of LocationTagger.tsx lines 148-150. -/
def minTs (e t : Nat) : Nat :=
  if t < e then t else e

/-- The identity key recomputed from a destination's own fields. -/
def destKey (d : Destination) : String :=
  keyOfLoc { type := d.type, name := d.name, country := d.country }

/-- A destination stripped of its generated `id`: everything the
aggregator computes deterministically from the tagged images. -/
def stripId (d : Destination) :
    LocType × String × String × List String × Nat × Option Nat :=
  (d.type, d.name, d.country, d.images, d.visitOrder, d.earliestTimestamp)

/- ===== Location tagging session (confirmSuggestion) =====

Here runtime values matter below the TypeScript types: the non-null
assertions `suggestedCity!` / `suggestedCountry!` at LocationTagger.tsx
lines 81-82 are erased at runtime, so `undefined` can flow into the
committed location.  The tagging-session model therefore represents the
possibly-undefined string fields as `Option String`. -/

/-- `TravelImage.geoTag` (types.ts lines 19-24): lat/lng with optional
geocoder suggestions. -/
structure GeoTag where
  lat : Int
  lng : Int
  suggestedCity : Option String
  suggestedCountry : Option String
deriving DecidableEq, Repr

/-- A committed location as it exists at runtime: `name` and `country`
hold whatever the assignment stored, including `undefined`. -/
structure RLocation where
  type : LocType
  name : Option String
  country : Option String
deriving DecidableEq, Repr

/-- An image as seen by the tagging session. -/
structure TImage where
  id : String
  preview : String
  location : Option RLocation
  geoTag : Option GeoTag
deriving DecidableEq, Repr

/-- JS truthiness of an optional string: `undefined` and `""` are
falsy. -/
def truthyStr (o : Option String) : Bool :=
  match o with
  | none => false
  | some s => decide (s ≠ "")

/-- `confirmSuggestion` (LocationTagger.tsx lines 72-87) acting on the
`taggedImages` list at `currentIndex = i`.  Returns the new list and
whether `goToNext()` was invoked.  `if (!currentImage.geoTag) return;`
is a silent early return: no error value exists in the source.  When
`geoTag` is present the committed location is built from the raw
suggestion fields (possibly `undefined`).  An out-of-range index is
not reachable from the UI; the model returns the state unchanged
there. -/
def confirmSuggestion (imgs : List TImage) (i : Nat) : List TImage × Bool :=
  match imgs.get? i with
  | none => (imgs, false)
  | some img =>
    match img.geoTag with
    | none => (imgs, false)
    | some g =>
      let hasCity := truthyStr g.suggestedCity
      (imgs.set i
        { img with
          location := some
            { type := if hasCity then LocType.city else LocType.country,
              name := if hasCity then g.suggestedCity else g.suggestedCountry,
              country := g.suggestedCountry } }, true)

/- ===== Story compiler and playback (RecapStory.tsx) ===== -/

/-- The four quarter keys `'Q1' | 'Q2' | 'Q3' | 'Q4'`. -/
inductive Quarter where
  | q1 : Quarter
  | q2 : Quarter
  | q3 : Quarter
  | q4 : Quarter
deriving DecidableEq, Repr

/-- The fixed iteration order `['Q1', 'Q2', 'Q3', 'Q4']`
(RecapStory.tsx line 163). -/
def quarterOrder : List Quarter :=
  [Quarter.q1, Quarter.q2, Quarter.q3, Quarter.q4]

/-- `QUARTER_NAMES` (RecapStory.tsx lines 41-46). -/
def quarterName : Quarter → String
  | Quarter.q1 => "Beginning of the Year"
  | Quarter.q2 => "Mid-Year Adventures"
  | Quarter.q3 => "Late Summer Travels"
  | Quarter.q4 => "Year-End Journeys"

/-- The quarter a destination lands in (RecapStory.tsx lines 135-148):
`if (timestamp)` is a JS truthiness test, so a missing *or zero*
`earliestTimestamp` takes the `else` branch into Q4; otherwise the
month (1-12) supplied by the Date collaborator decides the quarter. -/
def assignQuarter (month : Nat → Nat) (d : Destination) : Quarter :=
  match d.earliestTimestamp with
  | some t =>
    if t = 0 then Quarter.q4
    else
      let m := month t
      if m ≤ 3 then Quarter.q1
      else if m ≤ 6 then Quarter.q2
      else if m ≤ 9 then Quarter.q3
      else Quarter.q4
  | none => Quarter.q4

/-- The `quarters` record being filled (RecapStory.tsx lines 128-133). -/
structure QRec where
  q1 : List Destination
  q2 : List Destination
  q3 : List Destination
  q4 : List Destination
deriving DecidableEq, Repr

/-- Bucket lookup. -/
def QRec.get (r : QRec) : Quarter → List Destination
  | Quarter.q1 => r.q1
  | Quarter.q2 => r.q2
  | Quarter.q3 => r.q3
  | Quarter.q4 => r.q4

/-- `quarters.QX.push(dest)`. -/
def QRec.push (r : QRec) (q : Quarter) (d : Destination) : QRec :=
  match q with
  | Quarter.q1 => { r with q1 := r.q1 ++ [d] }
  | Quarter.q2 => { r with q2 := r.q2 ++ [d] }
  | Quarter.q3 => { r with q3 := r.q3 ++ [d] }
  | Quarter.q4 => { r with q4 := r.q4 ++ [d] }

/-- `quarterlyDestinations` (RecapStory.tsx lines 127-152): a fold of
the destination list pushing each destination into its quarter. -/
def quarterlyDestinations (month : Nat → Nat) (dests : List Destination) : QRec :=
  dests.foldl (fun r d => r.push (assignQuarter month d) d)
    { q1 := [], q2 := [], q3 := [], q4 := [] }

/-- `StorySlide` (RecapStory.tsx lines 31-39). -/
inductive StorySlide where
  | intro : StorySlide
  | quarterIntro (quarter : Quarter) (qname : String) (count : Nat)
      (destinations : List Destination) : StorySlide
  | destSlide (dest : Destination) (quarter : Quarter) : StorySlide
  | summaryIntro : StorySlide
  | topSpot : StorySlide
  | busiestQuarter : StorySlide
  | quarterBreakdown : StorySlide
  | stampCollection : StorySlide
deriving DecidableEq, Repr

/-- The slides contributed by one quarter (RecapStory.tsx lines
165-186): nothing for an empty bucket, otherwise a `quarter-intro`
followed by one destination slide per bucket member. -/
def quarterSlides (month : Nat → Nat) (dests : List Destination)
    (q : Quarter) : List StorySlide :=
  let b := (quarterlyDestinations month dests).get q
  if b.length = 0 then []
  else
    StorySlide.quarterIntro q (quarterName q) b.length b ::
      b.map (fun d => StorySlide.destSlide d q)

/-- Recognizer for `quarter-intro` slides. -/
def isQuarterIntroS (s : StorySlide) : Bool :=
  match s with
  | StorySlide.quarterIntro _ _ _ _ => true
  | _ => false

/-- Recognizer for `destination` slides. -/
def isDestSlideS (s : StorySlide) : Bool :=
  match s with
  | StorySlide.destSlide _ _ => true
  | _ => false

/-- The number of non-empty quarter buckets (the `activeQuartersCount`
of RecapStory.tsx line 458). -/
def activeQuarterCount (month : Nat → Nat) (dests : List Destination) : Nat :=
  (quarterOrder.filter
    (fun q => ((quarterlyDestinations month dests).get q).length ≠ 0)).length

/-- The compiled deck (RecapStory.tsx lines 155-196): the empty input
collapses to `[intro, summary-intro, stamp-collection]`; otherwise
`intro`, the per-quarter slides in Q1→Q4 order, then the five summary
slides. -/
def slidesOf (month : Nat → Nat) (dests : List Destination) : List StorySlide :=
  if dests.length = 0 then
    [StorySlide.intro, StorySlide.summaryIntro, StorySlide.stampCollection]
  else
    [StorySlide.intro] ++
      quarterOrder.flatMap (quarterSlides month dests) ++
      [StorySlide.summaryIntro, StorySlide.topSpot, StorySlide.busiestQuarter,
       StorySlide.quarterBreakdown, StorySlide.stampCollection]

/-- `getSlideDuration` (RecapStory.tsx lines 257-268), in milliseconds.
Destination slides get `8000 + (imageCount - 1) * 4000` computed in JS
number arithmetic, hence over `Int` (zero images gives 4000, not the
truncated Nat subtraction). -/
def getSlideDuration : StorySlide → Int
  | StorySlide.destSlide d _ => 8000 + ((d.images.length : Int) - 1) * 4000
  | StorySlide.quarterIntro _ _ _ _ => 14000
  | StorySlide.intro => 10000
  | StorySlide.stampCollection => 16000
  | _ => 10000

/-- Is this the terminal `stamp-collection` slide? -/
def isStamp (s : StorySlide) : Bool :=
  match s with
  | StorySlide.stampCollection => true
  | _ => false

/-- Playback state: slide index and accumulated progress (percent,
rational since the per-tick increment is `50 / duration * 100`). -/
structure PlayState where
  index : Nat
  progress : ℚ
deriving DecidableEq

/-- `goToNext` (RecapStory.tsx lines 227-236): advance when not at the
last slide, resetting progress; otherwise nothing happens. -/
def goToNextP (len : Nat) (s : PlayState) : PlayState :=
  if s.index < len - 1 then
    { index := min (s.index + 1) (len - 1), progress := 0 }
  else s

/-- `goToPrev` (RecapStory.tsx lines 238-247). -/
def goToPrevP (s : PlayState) : PlayState :=
  if 0 < s.index then { index := s.index - 1, progress := 0 } else s

/-- One firing of the auto-advance machinery (RecapStory.tsx lines
250-291): on the `stamp-collection` slide the effect returns before
arming the timer, so nothing happens; otherwise progress grows by
`(50 / duration) * 100`, is clamped at 100, and reaching 100 triggers
`goToNext`.  A state whose index is outside the deck has no current
slide and is left unchanged (unreachable from valid states). -/
def tickP (sl : List StorySlide) (s : PlayState) : PlayState :=
  match sl.get? s.index with
  | none => s
  | some slide =>
    if isStamp slide then s
    else
      let inc : ℚ := 50 / ((getSlideDuration slide : ℚ)) * 100
      let p := s.progress + inc
      let p' := if 100 ≤ p then (100 : ℚ) else p
      if 100 ≤ p' then goToNextP sl.length { s with progress := p' }
      else { s with progress := p' }

/- ===== Concrete inputs for counterexamples and witnesses ===== -/

/-- A run's uuid supply returning `"a"` for every draw. -/
def uuidA : Nat → String := fun _ => "a"

/-- A different run's uuid supply returning `"b"`. -/
def uuidB : Nat → String := fun _ => "b"

/-- A Date collaborator mapping every timestamp to January. -/
def monthJan : Nat → Nat := fun _ => 1

/-- A located image with no capture timestamp. -/
def imgNoTs : TravelImage :=
  { id := "i1", preview := "p1",
    location := some { type := LocType.city, name := "Rome", country := "Italy" },
    timestamp := none }

/-- A located, timestamped image: Paris. -/
def imgParis : TravelImage :=
  { id := "i2", preview := "p2",
    location := some { type := LocType.city, name := "Paris", country := "France" },
    timestamp := some 100 }

/-- The same place with a leading space in the city name. -/
def imgParisSpace : TravelImage :=
  { id := "i3", preview := "p3",
    location := some { type := LocType.city, name := " Paris", country := "France" },
    timestamp := some 50 }

/-- The same place in different case. -/
def imgParisLower : TravelImage :=
  { id := "i4", preview := "p4",
    location := some { type := LocType.city, name := "paris", country := "france" },
    timestamp := some 50 }

/-- A tagging-session image with no geoTag at all. -/
def timgNoGeo : TImage :=
  { id := "t1", preview := "q1", location := none, geoTag := none }

/-- A tagging-session image whose geoTag has lat/lng only — the shape
the external interface permits (types.ts lines 19-24). -/
def timgLatLngOnly : TImage :=
  { id := "t2", preview := "q2", location := none,
    geoTag := some { lat := 45, lng := 9,
                     suggestedCity := none, suggestedCountry := none } }

/-- A tagging-session image with a full suggestion. -/
def timgSuggested : TImage :=
  { id := "t3", preview := "q3", location := none,
    geoTag := some { lat := 48, lng := 2,
                     suggestedCity := some "Paris",
                     suggestedCountry := some "France" } }

/-- A destination dated in January (maps to Q1 under `monthJan`). -/
def destJan : Destination :=
  { id := "d1", type := LocType.city, name := "Rome", country := "Italy",
    images := ["p1"], visitOrder := 1, earliestTimestamp := some 100 }

/-- A destination whose `earliestTimestamp` is present but zero. -/
def destZero : Destination :=
  { id := "d0", type := LocType.city, name := "Oslo", country := "Norway",
    images := ["p0"], visitOrder := 1, earliestTimestamp := some 0 }

/-- A destination with no `earliestTimestamp`. -/
def destUndated : Destination :=
  { id := "d2", type := LocType.country, name := "Japan", country := "Japan",
    images := ["p2", "p3"], visitOrder := 2, earliestTimestamp := none }

/- ===== Association-map lemmas ===== -/

theorem findA_cons (k k' : String) (a : Accum) (m : List (String × Accum)) :
    findA k ((k', a) :: m) = if k' = k then some a else findA k m := by
  by_cases h : k' = k <;> simp [findA, List.find?, h]

theorem hasKey_eq_isSome (k : String) (m : List (String × Accum)) :
    hasKey k m = (findA k m).isSome := by
  induction m with
  | nil => rfl
  | cons e m ih =>
    obtain ⟨k', a⟩ := e
    by_cases h : k' = k <;> simp [hasKey, findA_cons, h] at ih ⊢ <;>
      simpa [hasKey] using ih

theorem findA_updateEntry_self (k : String) (p : String) (t : Nat)
    (m : List (String × Accum)) :
    findA k (updateEntry k p t m) =
      (findA k m).map (fun a =>
        { a with
          images := a.images ++ [p],
          timestamps := a.timestamps ++ [t],
          earliestTimestamp :=
            if t < a.earliestTimestamp then t else a.earliestTimestamp }) := by
  induction m with
  | nil => rfl
  | cons e m ih =>
    obtain ⟨k', a⟩ := e
    by_cases h : k' = k <;> simp [updateEntry, findA_cons, h, ih]

theorem findA_updateEntry_ne (k k' : String) (p : String) (t : Nat)
    (m : List (String × Accum)) (h : k' ≠ k) :
    findA k' (updateEntry k p t m) = findA k' m := by
  induction m with
  | nil => rfl
  | cons e m ih =>
    obtain ⟨k'', a⟩ := e
    by_cases h2 : k'' = k
    · have h4 : k'' ≠ k' := fun hc => h (hc ▸ h2)
      simp [updateEntry, h2, findA_cons, h4, Ne.symm h]
    · simp [updateEntry, h2, findA_cons, ih]

theorem findA_append_right (k e1 : String) (a : Accum)
    (m : List (String × Accum)) (h : findA k m = none) :
    findA k (m ++ [(e1, a)]) = if e1 = k then some a else none := by
  induction m with
  | nil => simp [findA_cons, findA]
  | cons f m ih =>
    obtain ⟨k', b⟩ := f
    by_cases h2 : k' = k
    · simp [findA_cons, h2] at h
    · simp [findA_cons, h2] at h ⊢
      exact ih h

theorem findA_append_left (k e1 : String) (a : Accum)
    (m : List (String × Accum)) (h : e1 ≠ k) :
    findA k (m ++ [(e1, a)]) = findA k m := by
  induction m with
  | nil => simp [findA_cons, findA, h]
  | cons f m ih =>
    obtain ⟨k', b⟩ := f
    by_cases h2 : k' = k <;> simp [findA_cons, h2, ih]

theorem stepEntry_findA (now : Nat) (m : List (String × Accum))
    (img : TravelImage) (k : String) :
    findA k (stepEntry now m img) =
      if imgKey img = some k then extendAcc now (findA k m) img
      else findA k m := by
  cases hl : img.location with
  | none => simp [stepEntry, imgKey, hl]
  | some loc =>
    by_cases hk : keyOfLoc loc = k
    · subst hk
      by_cases hh : hasKey (keyOfLoc loc) m
      · rw [hasKey_eq_isSome] at hh
        obtain ⟨a, ha⟩ := Option.isSome_iff_exists.mp hh
        simp [stepEntry, hl, hasKey_eq_isSome, ha, findA_updateEntry_self,
          extendAcc, imgKey]
      · have hh2 : findA (keyOfLoc loc) m = none := by
          cases hfa : findA (keyOfLoc loc) m with
          | none => rfl
          | some a => exact absurd (by rw [hasKey_eq_isSome, hfa]; rfl) hh
        simp [stepEntry, hl, hasKey_eq_isSome, hh2, imgKey,
          findA_append_right _ _ _ _ hh2, extendAcc]
    · by_cases hh : hasKey (keyOfLoc loc) m
      · simp [stepEntry, hl, hh, imgKey, hk,
          findA_updateEntry_ne _ _ _ _ _ (fun hc => hk hc.symm)]
      · simp [stepEntry, hl, hh, imgKey, hk, findA_append_left _ _ _ _ hk]

theorem findA_foldl (now : Nat) (l : List TravelImage) :
    ∀ (m : List (String × Accum)) (k : String),
      findA k (List.foldl (stepEntry now) m l) =
        List.foldl
          (fun o i => if imgKey i = some k then extendAcc now o i else o)
          (findA k m) l := by
  induction l with
  | nil => intro m k; rfl
  | cons i l ih =>
    intro m k
    simp only [List.foldl_cons, ih, stepEntry_findA]

theorem foldl_extend_filter (now : Nat) (k : String) (l : List TravelImage) :
    ∀ o : Option Accum,
      List.foldl
        (fun o i => if imgKey i = some k then extendAcc now o i else o) o l =
        List.foldl (extendAcc now) o (groupOf k l) := by
  induction l with
  | nil => intro o; rfl
  | cons i l ih =>
    intro o
    by_cases h : imgKey i = some k <;>
      simp only [groupOf, List.filter_cons, h, List.foldl_cons] at ih ⊢ <;>
      simp [ih]

theorem findA_buildMap (now : Nat) (k : String) (imgs : List TravelImage) :
    findA k (buildMap now imgs) =
      List.foldl (extendAcc now) none (groupOf k imgs) := by
  rw [buildMap, findA_foldl]
  simpa [findA] using foldl_extend_filter now k imgs none

theorem group_all_located (k : String) (imgs : List TravelImage) :
    ∀ x ∈ groupOf k imgs, x.location.isSome := by
  intro x hx
  rw [groupOf, List.mem_filter] at hx
  have h2 := of_decide_eq_true hx.2
  cases hl : x.location with
  | none => rw [imgKey, hl] at h2; simp at h2
  | some loc => rfl

theorem foldl_extend_some (now : Nat) (gs : List TravelImage) :
    ∀ a : Accum, (∀ x ∈ gs, x.location.isSome) →
      List.foldl (extendAcc now) (some a) gs =
        some { a with
                images := a.images ++ gs.map (fun i => i.preview),
                timestamps := a.timestamps ++ gs.map (jsTimestamp now),
                earliestTimestamp :=
                  List.foldl (fun e x => minTs e (jsTimestamp now x))
                    a.earliestTimestamp gs } := by
  induction gs with
  | nil => intro a _; simp
  | cons g gs ih =>
    intro a hloc
    obtain ⟨loc, hl⟩ := Option.isSome_iff_exists.mp (hloc g (List.mem_cons_self g gs))
    have hrest : ∀ x ∈ gs, x.location.isSome :=
      fun x hx => hloc x (List.mem_cons_of_mem g hx)
    simp only [List.foldl_cons, extendAcc, hl, ih _ hrest, minTs]
    simp [List.append_assoc]

theorem findA_buildMap_closed (now : Nat) (k : String) (imgs : List TravelImage)
    (g : TravelImage) (gs : List TravelImage) (loc : Location)
    (hg : groupOf k imgs = g :: gs) (hl : g.location = some loc) :
    findA k (buildMap now imgs) =
      some { type := loc.type, name := loc.name, country := loc.country,
             images := (g :: gs).map (fun i => i.preview),
             timestamps := (g :: gs).map (jsTimestamp now),
             earliestTimestamp :=
               List.foldl (fun e x => minTs e (jsTimestamp now x))
                 (jsTimestamp now g) gs } := by
  have hrest : ∀ x ∈ gs, x.location.isSome := by
    intro x hx
    exact group_all_located k imgs x (hg ▸ List.mem_cons_of_mem g hx)
  rw [findA_buildMap, hg]
  simp only [List.foldl_cons, extendAcc, hl, foldl_extend_some now gs _ hrest]
  simp

/- ===== Map well-formedness ===== -/

theorem updateEntry_keys (k p : String) (t : Nat) (m : List (String × Accum)) :
    (updateEntry k p t m).map Prod.fst = m.map Prod.fst := by
  induction m with
  | nil => rfl
  | cons e m ih =>
    obtain ⟨k', a⟩ := e
    by_cases h : k' = k <;> simp [updateEntry, h, ih]

theorem updateEntry_mem_fields (k p : String) (t : Nat)
    (m : List (String × Accum)) :
    ∀ e ∈ updateEntry k p t m, ∃ e' ∈ m,
      e.1 = e'.1 ∧ e.2.type = e'.2.type ∧ e.2.name = e'.2.name ∧
        e.2.country = e'.2.country := by
  induction m with
  | nil => intro e he; simp [updateEntry] at he
  | cons f m ih =>
    obtain ⟨k', a⟩ := f
    intro e he
    by_cases h : k' = k
    · rw [updateEntry, if_pos h] at he
      rcases List.mem_cons.mp he with he | he
      · refine ⟨(k', a), List.mem_cons_self _ _, ?_, ?_, ?_, ?_⟩ <;> rw [he]
      · exact ⟨e, List.mem_cons_of_mem _ he, rfl, rfl, rfl, rfl⟩
    · rw [updateEntry, if_neg h] at he
      rcases List.mem_cons.mp he with he | he
      · refine ⟨(k', a), List.mem_cons_self _ _, ?_, ?_, ?_, ?_⟩ <;> rw [he]
      · obtain ⟨e', he', hf⟩ := ih e he
        exact ⟨e', List.mem_cons_of_mem _ he', hf⟩

theorem hasKey_false_not_mem (k : String) (m : List (String × Accum))
    (h : ¬hasKey k m = true) : k ∉ m.map Prod.fst := by
  intro hmem
  apply h
  rw [hasKey, List.any_eq_true]
  obtain ⟨e, he, hk⟩ := List.mem_map.mp hmem
  exact ⟨e, he, by simp [hk]⟩

theorem WFmap_step (now : Nat) (m : List (String × Accum)) (img : TravelImage)
    (h : WFmap m) : WFmap (stepEntry now m img) := by
  obtain ⟨hnd, hco⟩ := h
  cases hl : img.location with
  | none => exact ⟨by simpa [stepEntry, hl] using hnd, by simpa [stepEntry, hl] using hco⟩
  | some loc =>
    by_cases hh : hasKey (keyOfLoc loc) m
    · constructor
      · simpa [stepEntry, hl, hh, updateEntry_keys] using hnd
      · intro e he
        simp only [stepEntry, hl, hh, if_pos rfl] at he
        obtain ⟨e', he', h1, h2, h3, h4⟩ :=
          updateEntry_mem_fields (keyOfLoc loc) img.preview (jsTimestamp now img) m e
            (by simpa using he)
        rw [h1, h2, h3, h4]
        exact hco e' he'
    · have hh2 : hasKey (keyOfLoc loc) m = false := by
        rw [← Bool.not_eq_true]; exact hh
      constructor
      · have hnm : keyOfLoc loc ∉ m.map Prod.fst := hasKey_false_not_mem _ _ hh
        simp only [stepEntry, hl, hh2, Bool.false_eq_true, if_false,
          List.map_append, List.map_cons, List.map_nil]
        rw [List.nodup_append]
        refine ⟨hnd, List.nodup_singleton _, ?_⟩
        intro x hx hx2
        rw [List.mem_singleton] at hx2
        exact hnm (hx2 ▸ hx)
      · intro e he
        simp only [stepEntry, hl, hh2, Bool.false_eq_true, if_false,
          List.mem_append, List.mem_singleton] at he
        rcases he with he | he
        · exact hco e he
        · subst he; rfl

theorem WFmap_buildMap (now : Nat) (imgs : List TravelImage) :
    WFmap (buildMap now imgs) := by
  rw [buildMap]
  have : ∀ (l : List TravelImage) (m : List (String × Accum)), WFmap m →
      WFmap (List.foldl (stepEntry now) m l) := by
    intro l
    induction l with
    | nil => intro m hm; exact hm
    | cons i l ih => intro m hm; exact ih _ (WFmap_step now m i hm)
  exact this imgs [] ⟨List.nodup_nil, by simp⟩

/- ===== Membership and findA ===== -/

theorem findA_of_mem_nodup (m : List (String × Accum)) (e : String × Accum)
    (hn : (m.map Prod.fst).Nodup) (he : e ∈ m) : findA e.1 m = some e.2 := by
  induction m with
  | nil => simp at he
  | cons f m ih =>
    obtain ⟨k', a⟩ := f
    rcases List.mem_cons.mp he with he | he
    · subst he; simp [findA_cons]
    · have hne : k' ≠ e.1 := by
        intro hc
        have : e.1 ∈ m.map Prod.fst := List.mem_map.mpr ⟨e, he, rfl⟩
        rw [List.map_cons, List.nodup_cons] at hn
        exact hn.1 (hc ▸ this)
      rw [findA_cons, if_neg hne]
      exact ih (by rw [List.map_cons, List.nodup_cons] at hn; exact hn.2) he

theorem mem_of_findA (k : String) (m : List (String × Accum)) (a : Accum)
    (h : findA k m = some a) : (k, a) ∈ m := by
  rw [findA] at h
  obtain ⟨e, he, ha⟩ := Option.map_eq_some'.mp h
  have hk' := List.find?_some he
  have hk : e.1 = k := by simpa using hk'
  have hm := List.mem_of_find?_eq_some he
  have heq : e = (k, a) := Prod.ext hk (by simpa using ha)
  exact heq ▸ hm

/- ===== emitAll lemmas ===== -/

theorem of_mem_emitAll (uuid : Nat → String) (l : List (String × Accum)) :
    ∀ (i : Nat) (d : Destination), d ∈ emitAll uuid i l →
      ∃ n e, e ∈ l ∧ d = emitDest uuid n e := by
  induction l with
  | nil => intro i d hd; simp [emitAll] at hd
  | cons e l ih =>
    intro i d hd
    rcases List.mem_cons.mp hd with hd | hd
    · exact ⟨i, e, List.mem_cons_self _ _, hd⟩
    · obtain ⟨n, f, hf, hdf⟩ := ih (i + 1) d hd
      exact ⟨n, f, List.mem_cons_of_mem _ hf, hdf⟩

theorem mem_emitAll_of_mem (uuid : Nat → String) (l : List (String × Accum)) :
    ∀ (i : Nat) (e : String × Accum), e ∈ l →
      ∃ n, emitDest uuid n e ∈ emitAll uuid i l := by
  induction l with
  | nil => intro i e he; simp at he
  | cons f l ih =>
    intro i e he
    rcases List.mem_cons.mp he with he | he
    · exact ⟨i, he ▸ List.mem_cons_self _ _⟩
    · obtain ⟨n, hn⟩ := ih (i + 1) e he
      exact ⟨n, List.mem_cons_of_mem _ hn⟩

theorem emitAll_flatMap_images (uuid : Nat → String) (l : List (String × Accum)) :
    ∀ i : Nat, (emitAll uuid i l).flatMap (fun d => d.images) =
      l.flatMap (fun e => e.2.images) := by
  induction l with
  | nil => intro i; rfl
  | cons e l ih => intro i; simp [emitAll, emitDest, ih]

theorem emitAll_pairwise (uuid : Nat → String)
    {r : (String × Accum) → (String × Accum) → Prop}
    {r' : Destination → Destination → Prop}
    (hr : ∀ n m e f, r e f → r' (emitDest uuid n e) (emitDest uuid m f))
    (l : List (String × Accum)) (hp : l.Pairwise r) :
    ∀ i : Nat, (emitAll uuid i l).Pairwise r' := by
  induction l with
  | nil => intro i; exact List.Pairwise.nil
  | cons e l ih =>
    intro i
    rw [List.pairwise_cons] at hp
    refine List.Pairwise.cons ?_ (ih hp.2 (i + 1))
    intro d hd
    obtain ⟨n, f, hf, hdf⟩ := of_mem_emitAll uuid l (i + 1) d hd
    exact hdf ▸ hr i n e f (hp.1 f hf)

theorem emitAll_map_cond {β : Type} (uuid : Nat → String)
    (f : Destination → β) (g : (String × Accum) → β) (l : List (String × Accum))
    (hfg : ∀ n e, e ∈ l → f (emitDest uuid n e) = g e) :
    ∀ i : Nat, (emitAll uuid i l).map f = l.map g := by
  induction l with
  | nil => intro i; rfl
  | cons e l ih =>
    intro i
    rw [emitAll, List.map_cons, List.map_cons,
      hfg i e (List.mem_cons_self _ _),
      ih (fun n e' he' => hfg n e' (List.mem_cons_of_mem _ he')) (i + 1)]

theorem emitAll_map_stripId (u1 u2 : Nat → String) (l : List (String × Accum)) :
    ∀ i : Nat, (emitAll u1 i l).map stripId = (emitAll u2 i l).map stripId := by
  induction l with
  | nil => intro i; rfl
  | cons e l ih => intro i; simp [emitAll, emitDest, stripId, ih (i + 1)]

/- ===== Image conservation (permutation) lemmas ===== -/

theorem flatMap_images_updateEntry (k p : String) (t : Nat)
    (m : List (String × Accum)) (h : hasKey k m = true) :
    List.Perm ((updateEntry k p t m).flatMap (fun e => e.2.images))
      (m.flatMap (fun e => e.2.images) ++ [p]) := by
  induction m with
  | nil => simp [hasKey] at h
  | cons f m ih =>
    obtain ⟨k', a⟩ := f
    by_cases h2 : k' = k
    · rw [updateEntry, if_pos h2]
      simp only [List.flatMap_cons, List.append_assoc]
      exact List.Perm.append_left a.images List.perm_append_comm
    · have h3 : hasKey k m = true := by
        rw [hasKey, List.any_cons, Bool.or_eq_true] at h
        rcases h with hx | hx
        · exact absurd (of_decide_eq_true hx) h2
        · rw [hasKey]; exact hx
      rw [updateEntry, if_neg h2]
      simp only [List.flatMap_cons, List.append_assoc]
      exact List.Perm.append_left a.images (ih h3)

theorem flatMap_images_foldl (now : Nat) (l : List TravelImage) :
    ∀ m : List (String × Accum),
      List.Perm ((List.foldl (stepEntry now) m l).flatMap (fun e => e.2.images))
        (m.flatMap (fun e => e.2.images) ++
          (l.filter (fun i => i.location.isSome)).map (fun i => i.preview)) := by
  induction l with
  | nil => intro m; simp
  | cons i l ih =>
    intro m
    rw [List.foldl_cons]
    cases hl : i.location with
    | none =>
      have hstep : stepEntry now m i = m := by rw [stepEntry, hl]
      rw [hstep, List.filter_cons]
      simpa [hl] using ih m
    | some loc =>
      have hfc : (i :: l).filter (fun i => i.location.isSome) =
          i :: l.filter (fun i => i.location.isSome) := by
        rw [List.filter_cons, if_pos (by rw [hl]; rfl)]
      rw [← List.foldl_cons, hfc, List.map_cons]
      have hmid : List.Perm ((stepEntry now m i).flatMap (fun e => e.2.images))
          (m.flatMap (fun e => e.2.images) ++ [i.preview]) := by
        by_cases hh : hasKey (keyOfLoc loc) m
        · rw [stepEntry, hl]
          simp only [hh, if_pos]
          exact flatMap_images_updateEntry _ _ _ m hh
        · have hh2 : hasKey (keyOfLoc loc) m = false := by
            rw [← Bool.not_eq_true]; exact hh
          rw [stepEntry, hl]
          simp [hh2]
      refine List.Perm.trans (ih (stepEntry now m i)) ?_
      refine List.Perm.trans (hmid.append_right _) ?_
      rw [List.append_assoc]
      exact List.Perm.refl _

theorem located_filter_self (imgs : List TravelImage) :
    (locatedImages imgs).filter (fun i => i.location.isSome) =
      locatedImages imgs := by
  rw [List.filter_eq_self]
  intro a ha
  exact (List.mem_filter.mp ha).2

/- ===== Characterization of generateDestinations ===== -/

theorem gen_characterization (now : Nat) (u : Nat → String)
    (imgs : List TravelImage) (d : Destination)
    (hd : d ∈ generateDestinations now u imgs) :
    ∃ g gs, groupOf (destKey d) (locatedImages imgs) = g :: gs ∧
      g.location = some { type := d.type, name := d.name, country := d.country } ∧
      d.images = (g :: gs).map (fun i => i.preview) ∧
      d.earliestTimestamp =
        some (List.foldl (fun e x => minTs e (jsTimestamp now x))
          (jsTimestamp now g) gs) := by
  by_cases hle : (locatedImages imgs).length = 0
  · simp [generateDestinations, hle] at hd
  · simp only [generateDestinations, if_neg hle] at hd
    obtain ⟨n, e, hes, hde⟩ := of_mem_emitAll u _ 0 d hd
    have he : e ∈ buildMap now (locatedImages imgs) :=
      (List.mem_insertionSort entryLE).mp hes
    obtain ⟨hnd, hco⟩ := WFmap_buildMap now (locatedImages imgs)
    have hfind : findA e.1 (buildMap now (locatedImages imgs)) = some e.2 :=
      findA_of_mem_nodup _ e hnd he
    have hkey : destKey d = e.1 := by
      rw [hde, destKey]; simp only [emitDest]
      exact (hco e he).symm
    rw [findA_buildMap] at hfind
    cases hgroup : groupOf e.1 (locatedImages imgs) with
    | nil => rw [hgroup] at hfind; simp at hfind
    | cons g gs =>
      obtain ⟨loc, hl⟩ := Option.isSome_iff_exists.mp
        (group_all_located e.1 (locatedImages imgs) g
          (hgroup ▸ List.mem_cons_self g gs))
      have hclosed := findA_buildMap_closed now e.1 (locatedImages imgs) g gs loc hgroup hl
      rw [findA_buildMap, hgroup] at hclosed
      rw [hgroup] at hfind
      rw [hfind] at hclosed
      have he2 := Option.some_injective _ hclosed
      refine ⟨g, gs, hkey ▸ hgroup, ?_, ?_, ?_⟩
      · rw [hl, hde]; simp only [emitDest]
        rw [he2]
      · rw [hde]; simp only [emitDest]
        rw [he2]
      · rw [hde]; simp only [emitDest]
        rw [he2]

theorem gen_covers (now : Nat) (u : Nat → String) (imgs : List TravelImage)
    (img : TravelImage) (himg : img ∈ locatedImages imgs) :
    ∃ d, d ∈ generateDestinations now u imgs ∧
      some (destKey d) = imgKey img ∧ img.preview ∈ d.images := by
  have hle : ¬(locatedImages imgs).length = 0 := by
    intro hc
    rw [List.length_eq_zero] at hc
    exact absurd (hc ▸ himg) (List.not_mem_nil img)
  obtain ⟨loc, hl⟩ := Option.isSome_iff_exists.mp
    ((List.mem_filter.mp himg).2)
  have hik : imgKey img = some (keyOfLoc loc) := by rw [imgKey, hl]; rfl
  have hmg : img ∈ groupOf (keyOfLoc loc) (locatedImages imgs) := by
    rw [groupOf, List.mem_filter]
    exact ⟨himg, by rw [hik]; simp⟩
  cases hgroup : groupOf (keyOfLoc loc) (locatedImages imgs) with
  | nil => rw [hgroup] at hmg; simp at hmg
  | cons g gs =>
    obtain ⟨loc', hl'⟩ := Option.isSome_iff_exists.mp
      (group_all_located (keyOfLoc loc) (locatedImages imgs) g
        (hgroup ▸ List.mem_cons_self g gs))
    have hclosed := findA_buildMap_closed now (keyOfLoc loc) (locatedImages imgs) g gs loc' hgroup hl'
    have hmemB := mem_of_findA _ _ _ hclosed
    obtain ⟨hnd, hco⟩ := WFmap_buildMap now (locatedImages imgs)
    have hmemS := (List.mem_insertionSort entryLE).mpr hmemB
    obtain ⟨n, hmemE⟩ := mem_emitAll_of_mem u _ 0 _ hmemS
    refine ⟨_, by simpa only [generateDestinations, if_neg hle] using hmemE, ?_, ?_⟩
    · rw [hik, destKey]; simp only [emitDest]
      exact congrArg some (hco _ hmemB).symm
    · simp only [emitDest]
      exact List.mem_map_of_mem (fun i => i.preview) (hgroup ▸ hmg)

theorem gen_pairwise (now : Nat) (u : Nat → String) (imgs : List TravelImage) :
    (generateDestinations now u imgs).Pairwise
      (fun d1 d2 => d1.earliestTimestamp.getD 0 ≤ d2.earliestTimestamp.getD 0) := by
  by_cases hle : (locatedImages imgs).length = 0
  · simp [generateDestinations, hle]
  · simp only [generateDestinations, if_neg hle]
    refine @emitAll_pairwise u entryLE _ ?_ _ ?_ 0
    · intro n m e f hef
      simpa [emitDest] using hef
    · exact List.sorted_insertionSort entryLE _

theorem gen_images_perm (now : Nat) (u : Nat → String) (imgs : List TravelImage) :
    List.Perm ((generateDestinations now u imgs).flatMap (fun d => d.images))
      ((locatedImages imgs).map (fun i => i.preview)) := by
  by_cases hle : (locatedImages imgs).length = 0
  · have hnil : locatedImages imgs = [] := List.length_eq_zero.mp hle
    simp [generateDestinations, hle, hnil]
  · simp only [generateDestinations, if_neg hle]
    rw [emitAll_flatMap_images]
    refine List.Perm.trans
      ((List.perm_insertionSort entryLE _).flatMap_right _) ?_
    have h := flatMap_images_foldl now (locatedImages imgs) []
    rw [buildMap]
    simpa [located_filter_self] using h

theorem gen_destKey_nodup (now : Nat) (u : Nat → String)
    (imgs : List TravelImage) :
    ((generateDestinations now u imgs).map destKey).Nodup := by
  by_cases hle : (locatedImages imgs).length = 0
  · simp [generateDestinations, hle]
  · simp only [generateDestinations, if_neg hle]
    have hco := (WFmap_buildMap now (locatedImages imgs)).2
    rw [emitAll_map_cond u destKey Prod.fst _ (fun n e he => by
      rw [destKey]; simp only [emitDest]
      exact (hco e ((List.mem_insertionSort entryLE).mp he)).symm) 0]
    have hperm := (List.perm_insertionSort entryLE
      (buildMap now (locatedImages imgs))).map Prod.fst
    exact hperm.nodup_iff.mpr (WFmap_buildMap now (locatedImages imgs)).1

theorem jsTimestamp_of_not_truthy (now : Nat) (img : TravelImage)
    (h : hasTruthyTimestamp img = false) : jsTimestamp now img = now := by
  rw [jsTimestamp]; rw [hasTruthyTimestamp] at h
  cases ht : img.timestamp with
  | none => rfl
  | some t =>
    rw [ht] at h
    simp only [decide_eq_false_iff_not, Decidable.not_not] at h
    simp [h]

theorem foldl_minTs_const (now : Nat) (gs : List TravelImage)
    (h : ∀ x ∈ gs, jsTimestamp now x = now) :
    List.foldl (fun e x => minTs e (jsTimestamp now x)) now gs = now := by
  induction gs with
  | nil => rfl
  | cons g gs ih =>
    rw [List.foldl_cons, h g (List.mem_cons_self g gs)]
    have hm : minTs now now = now := by rw [minTs, if_neg (Nat.lt_irrefl now)]
    rw [hm]
    exact ih (fun x hx => h x (List.mem_cons_of_mem _ hx))

/- ===== Story compiler lemmas ===== -/

theorem QRec_get_push (r : QRec) (q q' : Quarter) (d : Destination) :
    (r.push q' d).get q = if q' = q then r.get q ++ [d] else r.get q := by
  cases q' <;> cases q <;> simp [QRec.push, QRec.get]

theorem quarterly_get (month : Nat → Nat) (dests : List Destination) (q : Quarter) :
    (quarterlyDestinations month dests).get q =
      dests.filter (fun d => assignQuarter month d = q) := by
  rw [quarterlyDestinations]
  have key : ∀ (l : List Destination) (r : QRec) (q : Quarter),
      (l.foldl (fun r d => r.push (assignQuarter month d) d) r).get q =
        r.get q ++ l.filter (fun d => assignQuarter month d = q) := by
    intro l
    induction l with
    | nil => intro r q; simp
    | cons d l ih =>
      intro r q
      rw [List.foldl_cons, ih, List.filter_cons]
      by_cases h : assignQuarter month d = q
      · rw [if_pos (by simpa using h), QRec_get_push, if_pos h]
        simp
      · rw [if_neg (by simpa using h), QRec_get_push, if_neg h]
  rw [key dests _ q]
  cases q <;> rfl

theorem partition4_length (month : Nat → Nat) (dests : List Destination) :
    ((quarterlyDestinations month dests).get Quarter.q1).length +
      ((quarterlyDestinations month dests).get Quarter.q2).length +
      ((quarterlyDestinations month dests).get Quarter.q3).length +
      ((quarterlyDestinations month dests).get Quarter.q4).length =
      dests.length := by
  simp only [quarterly_get]
  induction dests with
  | nil => rfl
  | cons d l ih =>
    cases hq : assignQuarter month d <;>
      simp [List.filter_cons, hq] <;> omega

theorem quarterSlides_length (month : Nat → Nat) (dests : List Destination)
    (q : Quarter) :
    (quarterSlides month dests q).length =
      (if ((quarterlyDestinations month dests).get q).length = 0 then 0
       else 1 + ((quarterlyDestinations month dests).get q).length) := by
  rw [quarterSlides]
  by_cases h : ((quarterlyDestinations month dests).get q).length = 0 <;>
    simp [h] <;> omega

theorem slidesOf_length (month : Nat → Nat) (dests : List Destination)
    (h : ¬dests.length = 0) :
    (slidesOf month dests).length =
      6 + activeQuarterCount month dests + dests.length := by
  have hpart := partition4_length month dests
  rw [slidesOf, if_neg h, activeQuarterCount, quarterOrder]
  simp only [List.flatMap_cons, List.flatMap_nil, List.filter_cons,
    List.filter_nil, List.append_nil, List.length_append, List.length_cons,
    List.length_nil, quarterSlides_length]
  by_cases h1 : ((quarterlyDestinations month dests).get Quarter.q1).length = 0 <;>
  by_cases h2 : ((quarterlyDestinations month dests).get Quarter.q2).length = 0 <;>
  by_cases h3 : ((quarterlyDestinations month dests).get Quarter.q3).length = 0 <;>
  by_cases h4 : ((quarterlyDestinations month dests).get Quarter.q4).length = 0 <;>
    simp [h1, h2, h3, h4] <;> omega

theorem countP_quarterSlides_qi (month : Nat → Nat) (dests : List Destination)
    (q : Quarter) :
    (quarterSlides month dests q).countP isQuarterIntroS =
      (if ((quarterlyDestinations month dests).get q).length = 0 then 0 else 1) := by
  rw [quarterSlides]
  by_cases h : ((quarterlyDestinations month dests).get q).length = 0
  · simp [h]
  · rw [if_neg h, if_neg h]
    have hz : (((quarterlyDestinations month dests).get q).map
        (fun d => StorySlide.destSlide d q)).countP isQuarterIntroS = 0 := by
      rw [List.countP_eq_zero]
      intro s hs
      obtain ⟨d, _, rfl⟩ := List.mem_map.mp hs
      simp [isQuarterIntroS]
    rw [List.countP_cons, hz]
    simp [isQuarterIntroS]

theorem countP_quarterSlides_dest (month : Nat → Nat) (dests : List Destination)
    (q : Quarter) :
    (quarterSlides month dests q).countP isDestSlideS =
      ((quarterlyDestinations month dests).get q).length := by
  rw [quarterSlides]
  by_cases h : ((quarterlyDestinations month dests).get q).length = 0
  · simp [h]
  · rw [if_neg h, List.countP_cons]
    have hfull : (((quarterlyDestinations month dests).get q).map
        (fun d => StorySlide.destSlide d q)).countP isDestSlideS =
        (((quarterlyDestinations month dests).get q).map
          (fun d => StorySlide.destSlide d q)).length := by
      rw [List.countP_eq_length]
      intro s hs
      obtain ⟨d, _, rfl⟩ := List.mem_map.mp hs
      rfl
    rw [hfull, List.length_map]
    simp [isDestSlideS]

theorem get_last_append (l : List StorySlide) (a : StorySlide) :
    (l ++ [a]).get? ((l ++ [a]).length - 1) = some a := by
  induction l with
  | nil => rfl
  | cons x l ih =>
    have h1 : ((x :: l) ++ [a]).length - 1 = l.length + 1 := by simp
    have h2 : (l ++ [a]).length - 1 = l.length := by simp
    rw [h1, List.cons_append, List.get?_cons_succ]
    rw [h2] at ih
    exact ih

theorem slidesOf_last (month : Nat → Nat) (dests : List Destination) :
    (slidesOf month dests).get? ((slidesOf month dests).length - 1) =
      some StorySlide.stampCollection := by
  rw [slidesOf]
  by_cases h : dests.length = 0
  · rw [if_pos h]; rfl
  · rw [if_neg h]
    have heq : [StorySlide.intro] ++
        quarterOrder.flatMap (quarterSlides month dests) ++
        [StorySlide.summaryIntro, StorySlide.topSpot, StorySlide.busiestQuarter,
         StorySlide.quarterBreakdown, StorySlide.stampCollection] =
        ([StorySlide.intro] ++
          quarterOrder.flatMap (quarterSlides month dests) ++
          [StorySlide.summaryIntro, StorySlide.topSpot,
           StorySlide.busiestQuarter, StorySlide.quarterBreakdown]) ++
          [StorySlide.stampCollection] := by
      simp
    rw [heq, get_last_append]

/- ===== Playback lemmas ===== -/

theorem tickP_stamp (sl : List StorySlide) (s : PlayState)
    (h : sl.get? s.index = some StorySlide.stampCollection) : tickP sl s = s := by
  unfold tickP
  rw [h]
  simp [isStamp]

theorem tickP_iter_stamp (sl : List StorySlide) (s : PlayState)
    (h : sl.get? s.index = some StorySlide.stampCollection) :
    ∀ n : Nat, (tickP sl)^[n] s = s := by
  intro n
  induction n with
  | zero => rfl
  | succ n ih => rw [Function.iterate_succ_apply', ih, tickP_stamp sl s h]

theorem goToNextP_last (len : Nat) (s : PlayState) (h : ¬s.index < len - 1) :
    goToNextP len s = s := by
  rw [goToNextP, if_neg h]

theorem slidesOf_countP_qi (month : Nat → Nat) (dests : List Destination)
    (h : ¬dests.length = 0) :
    (slidesOf month dests).countP isQuarterIntroS =
      activeQuarterCount month dests := by
  rw [slidesOf, if_neg h, activeQuarterCount, quarterOrder]
  simp only [List.countP_append, List.flatMap_cons, List.flatMap_nil,
    List.append_nil, List.filter_cons, List.filter_nil, countP_quarterSlides_qi]
  by_cases h1 : ((quarterlyDestinations month dests).get Quarter.q1).length = 0 <;>
  by_cases h2 : ((quarterlyDestinations month dests).get Quarter.q2).length = 0 <;>
  by_cases h3 : ((quarterlyDestinations month dests).get Quarter.q3).length = 0 <;>
  by_cases h4 : ((quarterlyDestinations month dests).get Quarter.q4).length = 0 <;>
    simp [h1, h2, h3, h4, List.countP_cons, List.countP_nil, isQuarterIntroS]

theorem slidesOf_countP_dest (month : Nat → Nat) (dests : List Destination)
    (h : ¬dests.length = 0) :
    (slidesOf month dests).countP isDestSlideS = dests.length := by
  have hpart := partition4_length month dests
  rw [slidesOf, if_neg h, quarterOrder]
  simp only [List.countP_append, List.flatMap_cons, List.flatMap_nil,
    List.append_nil, countP_quarterSlides_dest]
  simp [List.countP_cons, List.countP_nil, isDestSlideS]
  omega

/- ===== Claim theorems ===== -/

/-- C1 counterexample: an image with no capture timestamp still produces
a destination whose `earliestTimestamp` is PRESENT: the code substitutes
`Date.now()` (here 1000) via `img.timestamp || Date.now()`, so the
untimestamped image does participate in the min-timestamp computation
and the cluster does get an `earliestTimestamp` — refuting the claim
that such a cluster "gets no earliestTimestamp on its emitted
Destination". -/
theorem C1_counterexample :
    (generateDestinations 1000 uuidA [imgNoTs]).map
      (fun d => d.earliestTimestamp) = [some 1000] := by decide

/-- C1 (amended): an image whose `captureTimestamp` is absent (or zero,
which JS `||` also treats as absent) still contributes its preview to
its cluster's images, but it participates in the min-timestamp
computation with the fallback value `Date.now()`: on every input, each
emitted destination's `earliestTimestamp` is present and equals the
running minimum of `img.timestamp || now` over its own cluster's
contributing images, so a cluster none of whose members carries a
truthy timestamp gets `earliestTimestamp = now` — also in mixed
inputs — and the output is ordered by ascending `earliestTimestamp`
(such clusters sort by `now` like any other key, not unconditionally
last). -/
theorem C1_untimestamped_fallback (now : Nat) (uuid : Nat → String)
    (imgs : List TravelImage) :
    (∀ img ∈ locatedImages imgs, ∃ d ∈ generateDestinations now uuid imgs,
        img.preview ∈ d.images) ∧
    (∀ d ∈ generateDestinations now uuid imgs, ∃ g gs,
      groupOf (destKey d) (locatedImages imgs) = g :: gs ∧
      d.earliestTimestamp =
        some (List.foldl (fun e x => minTs e (jsTimestamp now x))
          (jsTimestamp now g) gs)) ∧
    (∀ d ∈ generateDestinations now uuid imgs,
      (∀ img ∈ groupOf (destKey d) (locatedImages imgs),
        hasTruthyTimestamp img = false) →
      d.earliestTimestamp = some now) ∧
    (generateDestinations now uuid imgs).Pairwise
      (fun d1 d2 => d1.earliestTimestamp.getD 0 ≤ d2.earliestTimestamp.getD 0) := by
  refine ⟨?_, ?_, ?_, gen_pairwise now uuid imgs⟩
  · intro img himg
    obtain ⟨d, hd, _, hp⟩ := gen_covers now uuid imgs img himg
    exact ⟨d, hd, hp⟩
  · intro d hd
    obtain ⟨g, gs, hg, _, _, he⟩ := gen_characterization now uuid imgs d hd
    exact ⟨g, gs, hg, he⟩
  · intro d hd hall
    obtain ⟨g, gs, hg, _, _, he⟩ := gen_characterization now uuid imgs d hd
    rw [hg] at hall
    have hgnow : jsTimestamp now g = now :=
      jsTimestamp_of_not_truthy now g (hall g (List.mem_cons_self g gs))
    rw [he, hgnow]
    rw [foldl_minTs_const now gs (fun x hx =>
      jsTimestamp_of_not_truthy now x (hall x (List.mem_cons_of_mem g hx)))]

/-- C1 witness: on the mixed input `[imgParis, imgNoTs]` (one
timestamped, one untimestamped image) with `now = 1000`, the cluster
none of whose members carries a timestamp is the second emitted
destination and its `earliestTimestamp` is `some 1000`. -/
theorem C1_untimestamped_fallback_witness :
    ({ id := "a", type := LocType.city, name := "Rome", country := "Italy",
       images := ["p1"], visitOrder := 2,
       earliestTimestamp := some 1000 } : Destination).earliestTimestamp =
      some 1000 :=
  (C1_untimestamped_fallback 1000 uuidA [imgParis, imgNoTs]).2.2.1 _
    (by decide) (by decide)

/-- C2 counterexample: two runs of the aggregator on the same input
produce different outputs, because `crypto.randomUUID()` draws fresh
ids each run (modelled by the two uuid supplies of the two runs) — so
outputs are NOT identical "same ids" included. -/
theorem C2_counterexample :
    generateDestinations 5 uuidA [imgParis] ≠
      generateDestinations 5 uuidB [imgParis] := by decide

/-- C2 (amended): aggregation is deterministic in everything except the
generated `id` fields: for any two uuid supplies (two runs at the same
`Date.now()`), the outputs agree field for field once `id` is
stripped — same length, order, kind, name, country, images, visitOrder
and earliestTimestamp. -/
theorem C2_deterministic_up_to_ids (now : Nat) (u1 u2 : Nat → String)
    (imgs : List TravelImage) :
    (generateDestinations now u1 imgs).map stripId =
      (generateDestinations now u2 imgs).map stripId := by
  by_cases hle : (locatedImages imgs).length = 0
  · simp [generateDestinations, hle]
  · simp only [generateDestinations, if_neg hle]
    exact emitAll_map_stripId u1 u2 _ 0

/-- C3 counterexample: two images whose resolved locations differ only
by surrounding whitespace in the city name ("Paris" vs " Paris", same
country) yield TWO destinations — the identity key lowercases but does
not trim, refuting the claimed whitespace-insensitive collapse. -/
theorem C3_counterexample :
    (generateDestinations 5 uuidA [imgParis, imgParisSpace]).length = 2 := by
  decide

/-- C3 (amended): two images whose resolved locations differ only by
case collapse into exactly one Destination (keys are unique in the
output and every located image's key is represented), the destination's
kind, name and country are those of the first contributing image, and
the identity key is (kind, lowercased name, lowercased country) for
city-kind and (kind, lowercased country) for country-kind; surrounding
whitespace is NOT normalized. -/
theorem C3_dedup_case_insensitive (now : Nat) (uuid : Nat → String)
    (imgs : List TravelImage) :
    ((generateDestinations now uuid imgs).map destKey).Nodup ∧
    (∀ img ∈ locatedImages imgs, ∃ d ∈ generateDestinations now uuid imgs,
        some (destKey d) = imgKey img) ∧
    (∀ d ∈ generateDestinations now uuid imgs,
      ∃ g gs, groupOf (destKey d) (locatedImages imgs) = g :: gs ∧
        g.location = some { type := d.type, name := d.name, country := d.country }) ∧
    (∀ l1 l2 : Location, l1.type = l2.type →
      strLower l1.name = strLower l2.name →
      strLower l1.country = strLower l2.country →
      keyOfLoc l1 = keyOfLoc l2) := by
  refine ⟨gen_destKey_nodup now uuid imgs, ?_, ?_, ?_⟩
  · intro img himg
    obtain ⟨d, hd, hk, _⟩ := gen_covers now uuid imgs img himg
    exact ⟨d, hd, hk⟩
  · intro d hd
    obtain ⟨g, gs, hg, hl, _, _⟩ := gen_characterization now uuid imgs d hd
    exact ⟨g, gs, hg, hl⟩
  · intro l1 l2 ht hn hc
    rw [keyOfLoc, keyOfLoc, ← ht]
    cases l1.type <;> rw [hn, hc]

/-- C3 witness: case-variant Paris locations share one identity key. -/
theorem C3_dedup_case_insensitive_witness :
    keyOfLoc { type := LocType.city, name := "Paris", country := "France" } =
      keyOfLoc { type := LocType.city, name := "paris", country := "france" } :=
  (C3_dedup_case_insensitive 5 uuidA [imgParis, imgParisLower]).2.2.2 _ _
    rfl (by decide) (by decide)

/-- C4 counterexample: the summary tail is NOT input-independent — the
empty deck is `[intro, summary-intro, stamp-collection]` (3 slides, a
2-slide tail) while any non-empty deck ends with 5 summary slides —
and the claimed formula `compile([]).length = compile(x).length -
(3 * activeQuarters + totalDests)` fails at a one-destination input:
3 ≠ 8 - (3\*1 + 1) = 4. -/
theorem C4_counterexample :
    (slidesOf monthJan []).length = 3 ∧
    (slidesOf monthJan [destJan]).length = 8 ∧
    activeQuarterCount monthJan [destJan] = 1 ∧
    (slidesOf monthJan []).length ≠
      (slidesOf monthJan [destJan]).length -
        (3 * activeQuarterCount monthJan [destJan] + 1) := by decide

/-- C4 (amended): the compiled deck has exactly one quarter-intro per
non-empty quarter and exactly one destination slide per destination on
top of one intro slide; the summary tail is 5 slides for non-empty
input, so `compile(x).length = 6 + activeQuarters + totalDests`, while
the empty deck collapses to 3 slides `[intro, summary-intro,
stamp-collection]`; hence `compile([]).length = compile(x).length -
(activeQuarters + totalDests + 3)`. -/
theorem C4_slide_count (month : Nat → Nat) (dests : List Destination)
    (h : dests ≠ []) :
    (slidesOf month dests).length =
      6 + activeQuarterCount month dests + dests.length ∧
    (slidesOf month dests).countP isQuarterIntroS =
      activeQuarterCount month dests ∧
    (slidesOf month dests).countP isDestSlideS = dests.length ∧
    (slidesOf month []).length = 3 ∧
    (slidesOf month []).length =
      (slidesOf month dests).length -
        (activeQuarterCount month dests + dests.length + 3) := by
  have hlen : ¬dests.length = 0 := fun hc => h (List.length_eq_zero.mp hc)
  refine ⟨slidesOf_length month dests hlen, slidesOf_countP_qi month dests hlen,
    slidesOf_countP_dest month dests hlen, rfl, ?_⟩
  rw [slidesOf_length month dests hlen]
  have : (slidesOf month []).length = 3 := rfl
  omega

/-- C4 witness: the count identity at a concrete one-destination
input. -/
theorem C4_slide_count_witness :
    (slidesOf monthJan []).length =
      (slidesOf monthJan [destJan]).length -
        (activeQuarterCount monthJan [destJan] + 1 + 3) :=
  (C4_slide_count monthJan [destJan] (by decide)).2.2.2.2

/-- C5 counterexample: a destination whose `earliestTimestamp` is
present but zero is bucketed into Q4 although its month is 1 (January
1970 under the Date collaborator `monthJan`), because the code tests
`if (timestamp)` — JS truthiness — not presence; the claim "assigns by
month whenever the timestamp is present" fails at `some 0`. -/
theorem C5_counterexample :
    destZero.earliestTimestamp = some 0 ∧ monthJan 0 = 1 ∧
    (quarterlyDestinations monthJan [destZero]).get Quarter.q1 = [] ∧
    (quarterlyDestinations monthJan [destZero]).get Quarter.q4 = [destZero] := by
  decide

/-- C5 (amended): the quarter bucketing assigns a destination by the
month (1-12) of its `earliestTimestamp` whenever that timestamp is
present AND nonzero, and assigns it to Q4 when the timestamp is absent
or zero (JS truthiness); an undated destination is never dropped, and
each bucket is exactly the subsequence of the global aggregator order
whose members are assigned to that quarter (relative order kept). -/
theorem C5_quarter_bucketing (month : Nat → Nat) (dests : List Destination) :
    (∀ q, (quarterlyDestinations month dests).get q =
      dests.filter (fun d => assignQuarter month d = q)) ∧
    (∀ (d : Destination) (t : Nat), d.earliestTimestamp = some t → t ≠ 0 →
      assignQuarter month d =
        (if month t ≤ 3 then Quarter.q1
         else if month t ≤ 6 then Quarter.q2
         else if month t ≤ 9 then Quarter.q3 else Quarter.q4)) ∧
    (∀ d : Destination,
      d.earliestTimestamp = none ∨ d.earliestTimestamp = some 0 →
        assignQuarter month d = Quarter.q4) ∧
    (∀ d ∈ dests, d ∈ (quarterlyDestinations month dests).get
      (assignQuarter month d)) := by
  refine ⟨quarterly_get month dests, ?_, ?_, ?_⟩
  · intro d t ht hnz
    simp [assignQuarter, ht, hnz]
  · intro d hd
    rcases hd with hd | hd <;> rw [assignQuarter, hd] <;> rfl
  · intro d hd
    rw [quarterly_get, List.mem_filter]
    exact ⟨hd, by simp⟩

/-- C5 witness: a January-dated destination lands in Q1; an undated
destination lands in Q4. -/
theorem C5_quarter_bucketing_witness :
    assignQuarter monthJan destJan = Quarter.q1 ∧
    assignQuarter monthJan destUndated = Quarter.q4 :=
  ⟨by
    have h := (C5_quarter_bucketing monthJan [destJan]).2.1 destJan 100 rfl
      (by decide)
    simpa [monthJan] using h,
   (C5_quarter_bucketing monthJan [destUndated]).2.2.1 destUndated (Or.inl rfl)⟩

/-- C6 counterexample: calling `confirmSuggestion` on an image with no
geoTag does NOT fail — there is no `NoSuggestionError` anywhere in the
code; the function silently returns, leaving the image list unchanged
and not advancing, which is exactly the "silently doing nothing" the
claim rules out. -/
theorem C6_counterexample :
    confirmSuggestion [timgNoGeo] 0 = ([timgNoGeo], false) := by decide

/-- C6 (amended): when the current image has no `geoTag`,
`confirmSuggestion` silently returns with no state change and no error
(the guard is on `geoTag` presence, not suggestion presence); when a
`geoTag` is present it commits a location with kind 'city' if the
suggested city is present and non-empty (JS truthiness) else 'country',
name = that suggested city else the suggested country, and country =
the suggested country — the raw optional fields, with no further
check. -/
theorem C6_confirm_behaviour (imgs : List TImage) (i : Nat) (img : TImage)
    (hi : imgs.get? i = some img) :
    (img.geoTag = none → confirmSuggestion imgs i = (imgs, false)) ∧
    (∀ g, img.geoTag = some g →
      confirmSuggestion imgs i =
        (imgs.set i
          { img with
            location := some
              { type := if truthyStr g.suggestedCity then LocType.city
                        else LocType.country,
                name := if truthyStr g.suggestedCity then g.suggestedCity
                        else g.suggestedCountry,
                country := g.suggestedCountry } }, true)) := by
  constructor
  · intro hg
    unfold confirmSuggestion
    rw [hi]
    simp [hg]
  · intro g hg
    unfold confirmSuggestion
    rw [hi]
    simp [hg]

/-- C6 witness: with a full suggestion present, the committed location
is city-kind Paris, France, and the session advances. -/
theorem C6_confirm_behaviour_witness :
    confirmSuggestion [timgSuggested] 0 =
      ([{ timgSuggested with
          location := some
            { type := LocType.city, name := some "Paris",
              country := some "France" } }], true) :=
  ((C6_confirm_behaviour [timgSuggested] 0 timgSuggested rfl).2
    { lat := 48, lng := 2, suggestedCity := some "Paris",
      suggestedCountry := some "France" } rfl).trans (by decide)

/-- C7: the compiled deck's terminal slide is the stamp-collection
summary slide; once playback sits on it, any number of timer ticks
leaves the state unchanged (the auto-advance effect returns before
arming the timer and the progress-100 advance is guarded off), and
`goToNext` is likewise a no-op there — only a manual retreat can leave
the terminal slide. -/
theorem C7_terminal_no_autoadvance (month : Nat → Nat)
    (dests : List Destination) (s : PlayState)
    (h : s.index = (slidesOf month dests).length - 1) :
    (slidesOf month dests).get? s.index = some StorySlide.stampCollection ∧
    (∀ n : Nat, (tickP (slidesOf month dests))^[n] s = s) ∧
    goToNextP (slidesOf month dests).length s = s := by
  have hlast : (slidesOf month dests).get? s.index =
      some StorySlide.stampCollection := by
    rw [h]; exact slidesOf_last month dests
  refine ⟨hlast, tickP_iter_stamp _ _ hlast, ?_⟩
  apply goToNextP_last
  omega

/-- C7 witness: on the empty-input deck (3 slides), five ticks at the
terminal slide (index 2) change nothing. -/
theorem C7_terminal_no_autoadvance_witness :
    (tickP (slidesOf monthJan []))^[5]
      { index := 2, progress := 0 } = { index := 2, progress := 0 } :=
  ((C7_terminal_no_autoadvance monthJan []
    { index := 2, progress := 0 } (by decide)).2.1) 5

/-- C8: the duration policy gives the intro slide a fixed 10000 ms and
every quarter-intro slide a fixed 14000 ms regardless of input, while a
destination slide's duration `8000 + (imageCount - 1) * 4000` is
strictly increasing in the number of images attached to the
destination. -/
theorem C8_duration_policy :
    getSlideDuration StorySlide.intro = 10000 ∧
    (∀ (q : Quarter) (s : String) (n : Nat) (ds : List Destination),
      getSlideDuration (StorySlide.quarterIntro q s n ds) = 14000) ∧
    (∀ (d1 d2 : Destination) (q1 q2 : Quarter),
      d1.images.length < d2.images.length →
      getSlideDuration (StorySlide.destSlide d1 q1) <
        getSlideDuration (StorySlide.destSlide d2 q2)) := by
  refine ⟨rfl, fun _ _ _ _ => rfl, ?_⟩
  intro d1 d2 q1 q2 h
  simp only [getSlideDuration]
  have hc : (d1.images.length : Int) < (d2.images.length : Int) := by
    exact_mod_cast h
  omega

/-- C8 witness: a 1-image destination dwells 8000 ms, strictly less
than a 2-image destination's 12000 ms. -/
theorem C8_duration_policy_witness :
    getSlideDuration (StorySlide.destSlide destJan Quarter.q1) <
      getSlideDuration (StorySlide.destSlide destUndated Quarter.q4) :=
  C8_duration_policy.2.2 destJan destUndated Quarter.q1 Quarter.q4 (by decide)

/-- C9: aggregation conserves located images — the concatenation of the
`images` arrays over the output is a permutation of the previews of the
located input images (each exactly once, none dropped, none
duplicated), the lengths sum to the located count, and each
destination's images are exactly the previews of its key's group in
input encounter order. -/
theorem C9_image_conservation (now : Nat) (uuid : Nat → String)
    (imgs : List TravelImage) :
    List.Perm
      ((generateDestinations now uuid imgs).flatMap (fun d => d.images))
      ((locatedImages imgs).map (fun i => i.preview)) ∧
    ((generateDestinations now uuid imgs).map
      (fun d => d.images.length)).sum = (locatedImages imgs).length ∧
    (∀ d ∈ generateDestinations now uuid imgs, ∃ k,
      d.images = (groupOf k (locatedImages imgs)).map (fun i => i.preview)) := by
  refine ⟨gen_images_perm now uuid imgs, ?_, ?_⟩
  · have hlen := (gen_images_perm now uuid imgs).length_eq
    rw [List.length_flatMap, List.length_map] at hlen
    simpa using hlen
  · intro d hd
    obtain ⟨g, gs, hg, _, himg, _⟩ := gen_characterization now uuid imgs d hd
    exact ⟨destKey d, by rw [hg, himg]⟩

/-- C9 witness: on a concrete two-image input that merges into one
destination, the image counts sum to the located-image count. -/
theorem C9_image_conservation_witness :
    ((generateDestinations 5 uuidA [imgParis, imgParisLower]).map
      (fun d => d.images.length)).sum =
      (locatedImages [imgParis, imgParisLower]).length :=
  (C9_image_conservation 5 uuidA [imgParis, imgParisLower]).2.1

/-- C10: an image whose geoTag carries lat/lng only — a shape the
external interface permits — is not rejected by `confirmSuggestion`:
the guard only checks `geoTag` presence, so the call commits a
resolvedLocation of kind 'country' whose name and country are both
undefined (the non-null assertions are erased at runtime), and reports
the image as tagged. -/
theorem C10_latlng_only_commits_undefined :
    confirmSuggestion [timgLatLngOnly] 0 =
      ([{ timgLatLngOnly with
          location := some
            { type := LocType.country, name := none, country := none } }],
        true) := by decide

end TravelRecap
